import Mathlib

/-!
Shallow embedding of the chat worker (`src/index.ts`, final variant):
message data model, the token estimator and context trimmer, the
cancellation registry and chat-turn control flow, the history handler,
the cancel handler and the in-memory rate limiter, together with proofs
of the specified properties.

Timestamps and sizes are modelled as `Nat` (the runtime's clock values
are non-negative integers); the key-value store is modelled as a
function from conversation ids to an optional stored value; byte chunks
of the provider stream are modelled as the text they decode to.
-/

/-- The role of a chat message: `"system" | "user" | "assistant"`. -/
inductive Role where
  | system
  | user
  | assistant
deriving DecidableEq, Repr

/-- A model-facing message: `ChatMessage` in `types.ts`. -/
structure ChatMessage where
  role : Role
  content : String
deriving DecidableEq, Repr

/-- A persisted message: `Message` in `types.ts`; `interrupted` is an
optional flag set on assistant messages. -/
structure Message where
  role : Role
  content : String
  timestamp : Nat
  interrupted : Option Bool
deriving DecidableEq, Repr

/-- `estimateTokensFromMessages`: rough estimate, `Math.ceil(totalChars / 4)`
over the summed content lengths. -/
def estimateTokensFromMessages (messages : List ChatMessage) : Nat :=
  (messages.foldl (fun sum m => sum + m.content.length) 0 + 3) / 4

/-- The `while` loop of `trimMessagesToTokenLimit`: repeatedly `shift` the
oldest non-system message while messages remain and the combined estimate
exceeds the budget. -/
def dropOldestWhileOverLimit (systemMessages : List ChatMessage) :
    List ChatMessage → Nat → List ChatMessage
  | [], _ => []
  | m :: rest, maxTokens =>
    if estimateTokensFromMessages (systemMessages ++ m :: rest) > maxTokens then
      dropOldestWhileOverLimit systemMessages rest maxTokens
    else
      m :: rest

/-- `trimMessagesToTokenLimit`: return unchanged when under budget, otherwise
retain all system messages and drop oldest non-system messages until the
estimate fits (or none remain), returning system messages followed by the
surviving non-system messages. -/
def trimMessagesToTokenLimit (messages : List ChatMessage) (maxTokens : Nat) :
    List ChatMessage :=
  if estimateTokensFromMessages messages ≤ maxTokens then
    messages
  else
    let systemMessages := messages.filter (fun m => m.role = Role.system)
    let nonSystem := messages.filter (fun m => ¬ (m.role = Role.system))
    systemMessages ++ dropOldestWhileOverLimit systemMessages nonSystem maxTokens

/-- The cancellation registry `activeControllers`, modelled by its key set:
the list of conversation ids that currently hold an abort handle. -/
abbrev Registry := List String

/-- `activeControllers.set(conversationId, controller)`: an existing entry for
the key is overwritten (the key set gains the key if absent). -/
def registrySet (reg : Registry) (conversationId : String) : Registry :=
  if (List.contains reg conversationId) then reg else reg ++ [conversationId]

/-- `activeControllers.delete(conversationId)`: the key is removed. -/
def registryDelete (reg : Registry) (conversationId : String) : Registry :=
  List.filter (fun x => ¬ (x = conversationId)) reg

/-- How the provider stream obtained in `handlePostChat` ends, as observed by
the drain loop in the `ctx.waitUntil` continuation: natural end of stream
(`done`), an `AbortError` raised by the cancellation signal, or any other
read error (logged, not treated as an abort). -/
inductive StreamEnd where
  | done
  | abortError
  | otherError
deriving DecidableEq, Repr

/-- Outcome of invoking the model provider in `handlePostChat`:
`stream chunks e` — an ok response whose body delivers `chunks` (the decoded
text chunks that reach both sides of the `tee()`, i.e. exactly the chunks
forwarded to the client, up to the terminal event `e`); `httpError` — a
response with a non-ok status (502 path); `thrownTwice` — both the call and
its single retry threw (outer catch, 500 path). -/
inductive ProviderOutcome where
  | stream (chunks : List String) (e : StreamEnd)
  | httpError
  | thrownTwice
deriving DecidableEq, Repr

/-- Result of the drain loop: the accumulator string built by
`fullAiResponseContent += decoder.decode(value)` over the received chunks,
and the `isInterrupted` flag, set exactly when the loop ended with an
`AbortError`. -/
structure DrainResult where
  content : String
  isInterrupted : Bool
deriving DecidableEq, Repr

/-- The accumulation of the drain loop: left fold of string concatenation
starting from the empty accumulator. -/
def drainAccumulate (chunks : List String) : String :=
  List.foldl (fun acc c => acc ++ c) "" chunks

/-- The drain loop of the `ctx.waitUntil` continuation in `handlePostChat`. -/
def drainStream (chunks : List String) (e : StreamEnd) : DrainResult :=
  { content := drainAccumulate chunks
    isInterrupted := match e with
      | StreamEnd.abortError => true
      | _ => false }

/-- An element of the request body's `messages` array as validated by
`handlePostChat`: a role string and a content field that may be absent or
not a string (`none`). -/
structure RawMessage where
  role : String
  content : Option String
deriving DecidableEq, Repr

/-- JS `String.prototype.trim`, modelled on the character list: strip
leading and trailing whitespace. -/
def jsTrim (s : String) : String :=
  String.mk
    (((s.data.dropWhile Char.isWhitespace).reverse.dropWhile Char.isWhitespace).reverse)

/-- The validation of the last element of the `messages` array in
`handlePostChat`: it must exist, have role `"user"`, a string content, and
a non-empty trimmed content; on success the trimmed content is returned
(`userMessageContent`). -/
def lastMessageValid (msgs : List RawMessage) : Option String :=
  match List.getLast? msgs with
  | none => none
  | some lastMsg =>
    if lastMsg.role = "user" then
      match lastMsg.content with
      | some c => if jsTrim c = "" then none else some (jsTrim c)
      | none => none
    else none

/-- Conversation id resolution in `handlePostChat`:
`oldConversationId && oldConversationId !== 'null' ? oldConversationId : uuidv4()`;
a missing, empty or literal `"null"` id yields a freshly minted one. -/
def resolveConversationId (old : Option String) (fresh : String) : String :=
  match old with
  | some s => if ¬ (s = "") ∧ ¬ (s = "null") then s else fresh
  | none => fresh

/-- Observable result of one `handlePostChat` turn: HTTP status of the
response, the cancellation registry after the turn has fully ended
(response returned and, when a stream was obtained, the `waitUntil`
continuation finished), whether the model provider was invoked, and the
history written to the store by the continuation (`none` when nothing was
written). -/
structure ChatTurnResult where
  status : Nat
  registry : Registry
  modelCalled : Bool
  savedHistory : Option (List Message)
deriving DecidableEq, Repr

/-- `handlePostChat` (final variant of `src/index.ts`): validate the
`messages` array, resolve the conversation id, register an abort handle,
read the stored history, invoke the model, and — when a stream is
obtained — tee it, drain one side and persist
`[...history, userMessage, aiMessage]`, deleting the registry entry in the
drain's `finally`. On a non-ok provider response the handler returns 502,
and on a double invocation failure the outer catch returns 500; neither of
those paths deletes the registry entry. `storedHistory` is the history
read for the resolved id; `tsUser`/`tsAssistant` the clock values taken
for the two appended messages. -/
def handlePostChat (msgs : List RawMessage) (oldCid : Option String)
    (freshId : String) (reg : Registry) (storedHistory : List Message)
    (outcome : ProviderOutcome) (tsUser tsAssistant : Nat) : ChatTurnResult :=
  if List.length msgs = 0 then
    { status := 400, registry := reg, modelCalled := false, savedHistory := none }
  else
    match lastMessageValid msgs with
    | none =>
      { status := 400, registry := reg, modelCalled := false, savedHistory := none }
    | some userMessageContent =>
      let conversationId := resolveConversationId oldCid freshId
      let reg1 := registrySet reg conversationId
      let userMessage : Message :=
        { role := Role.user, content := userMessageContent,
          timestamp := tsUser, interrupted := none }
      match outcome with
      | ProviderOutcome.thrownTwice =>
        { status := 500, registry := reg1, modelCalled := true, savedHistory := none }
      | ProviderOutcome.httpError =>
        { status := 502, registry := reg1, modelCalled := true, savedHistory := none }
      | ProviderOutcome.stream chunks e =>
        let r := drainStream chunks e
        let aiMessage : Message :=
          { role := Role.assistant, content := r.content,
            timestamp := tsAssistant, interrupted := some r.isInterrupted }
        { status := 200
          registry := registryDelete reg1 conversationId
          modelCalled := true
          savedHistory := some (storedHistory ++ [userMessage, aiMessage]) }

/-- A stored key-value record for a conversation id: `some h` when the
stored JSON parses to the history `h`, `none` when it is present but
unparseable (the parse error is caught and swallowed). -/
def KVStore := String → Option (Option (List Message))

/-- `readHistory`: empty id, missing record, or read/parse failure all
degrade to the empty history. -/
def readHistory (kv : KVStore) (conversationId : String) : List Message :=
  if conversationId = "" then []
  else
    match kv conversationId with
    | some (some h) => h
    | some none => []
    | none => []

/-- `handleGetHistory`: status together with the JSON body's
`(conversationId, history)` payload when one is produced. The `id` query
parameter is `none` when absent; `searchParams.get` yields `""` for an
empty parameter, and both are falsy, hence 400. -/
def handleGetHistory (kv : KVStore) (idParam : Option String) :
    Nat × Option (String × List Message) :=
  match idParam with
  | none => (400, none)
  | some conversationId =>
    if conversationId = "" then (400, none)
    else (200, some (conversationId, readHistory kv conversationId))

/-- Result of `handlePostCancel`: HTTP status, the registry afterwards, and
whether an abort was signalled on a handle. The handler touches no stored
transcript (it takes no store reference at all). -/
structure CancelResult where
  status : Nat
  registry : Registry
  abortSignalled : Bool
deriving DecidableEq, Repr

/-- `handlePostCancel`: look up the conversation id in `activeControllers`;
if a controller is registered, abort it, delete the entry and answer 200,
otherwise answer 404 with no effect. -/
def handlePostCancel (reg : Registry) (conversationId : String) : CancelResult :=
  if (List.contains reg conversationId) then
    { status := 200, registry := registryDelete reg conversationId,
      abortSignalled := true }
  else
    { status := 404, registry := reg, abortSignalled := false }

/-- A `rateLimitMap` entry: `{ windowStart, count }`. -/
structure RateRecord where
  windowStart : Nat
  count : Nat
deriving DecidableEq, Repr

/-- The decision returned by `checkRateLimit`:
`{ allowed, retryAfterSec? }`. -/
structure RateLimitDecision where
  allowed : Bool
  retryAfterSec : Option Nat
deriving DecidableEq, Repr

/-- `checkRateLimit` for one client key: given that key's current map entry
(`none` when absent) and the current clock, return the decision and the
entry afterwards. A missing or expired window starts a new one with count
1; an active window under the max increments and allows; otherwise reject
with `Math.ceil((windowStart + windowMs - now) / 1000)` seconds. -/
def checkRateLimit (record : Option RateRecord) (now windowSec maxRequests : Nat) :
    RateLimitDecision × Option RateRecord :=
  let windowMs := windowSec * 1000
  match record with
  | none =>
    ({ allowed := true, retryAfterSec := none }, some { windowStart := now, count := 1 })
  | some r =>
    if now - r.windowStart ≥ windowMs then
      ({ allowed := true, retryAfterSec := none }, some { windowStart := now, count := 1 })
    else if r.count < maxRequests then
      ({ allowed := true, retryAfterSec := none },
        some { windowStart := r.windowStart, count := r.count + 1 })
    else
      ({ allowed := false,
         retryAfterSec := some ((r.windowStart + windowMs - now + 999) / 1000) }, some r)

/-- Run `checkRateLimit` for one fixed client key over a sequence of request
arrival times, threading the map entry; returns the per-request decisions
and the final entry. -/
def processRequests (record : Option RateRecord) :
    List Nat → Nat → Nat → List RateLimitDecision × Option RateRecord
  | [], _, _ => ([], record)
  | t :: ts, windowSec, maxRequests =>
    let step := checkRateLimit record t windowSec maxRequests
    let rest := processRequests step.2 ts windowSec maxRequests
    (step.1 :: rest.1, rest.2)

/-- A message list whose system messages are interleaved with non-system
messages, used as a concrete trimming input. -/
def mixedMessages : List ChatMessage :=
  [⟨Role.user, "aaaaaaaaaaaa"⟩, ⟨Role.system, "s"⟩, ⟨Role.user, "u"⟩, ⟨Role.system, "t"⟩]

/-! ### Lemmas about the trimming loop -/

theorem dropOldestWhileOverLimit_suffix (sys ns : List ChatMessage) (k : Nat) :
    dropOldestWhileOverLimit sys ns k <:+ ns := by
  induction ns with
  | nil => simp [dropOldestWhileOverLimit]
  | cons m rest ih =>
    simp only [dropOldestWhileOverLimit]
    split
    · exact ih.trans (List.suffix_cons m rest)
    · exact List.suffix_refl _

theorem dropOldestWhileOverLimit_spec (sys ns : List ChatMessage) (k : Nat) :
    dropOldestWhileOverLimit sys ns k = [] ∨
      estimateTokensFromMessages (sys ++ dropOldestWhileOverLimit sys ns k) ≤ k := by
  induction ns with
  | nil => exact Or.inl rfl
  | cons m rest ih =>
    simp only [dropOldestWhileOverLimit]
    split
    · exact ih
    · next h => exact Or.inr (Nat.le_of_not_lt h)

theorem filter_system_self (l : List ChatMessage) :
    (l.filter (fun x => x.role = Role.system)).filter (fun x => x.role = Role.system)
      = l.filter (fun x => x.role = Role.system) :=
  List.filter_eq_self.mpr (fun _ ha => (List.mem_filter.mp ha).2)

theorem filter_system_nonSystem_nil (l : List ChatMessage) :
    (l.filter (fun x => x.role = Role.system)).filter (fun x => ¬ (x.role = Role.system))
      = [] := by
  rw [List.filter_eq_nil_iff]
  intro a ha
  have h := (List.mem_filter.mp ha).2
  simp only [decide_eq_true_eq] at h
  simp [h]

theorem trimMessagesToTokenLimit_of_le (m : List ChatMessage) (k : Nat)
    (h : estimateTokensFromMessages m ≤ k) :
    trimMessagesToTokenLimit m k = m := by
  simp only [trimMessagesToTokenLimit]
  rw [if_pos h]

theorem trimMessagesToTokenLimit_of_gt (m : List ChatMessage) (k : Nat)
    (h : ¬ estimateTokensFromMessages m ≤ k) :
    trimMessagesToTokenLimit m k =
      m.filter (fun x => x.role = Role.system) ++
        dropOldestWhileOverLimit (m.filter (fun x => x.role = Role.system))
          (m.filter (fun x => ¬ (x.role = Role.system))) k := by
  simp only [trimMessagesToTokenLimit]
  rw [if_neg h]

/-- C4: every system message of `m` appears in `trim(m, k)`, and the length
of `trim(m, k)` is at most the length of `m`. -/
theorem trim_keeps_system_messages_and_never_grows (m : List ChatMessage) (k : Nat) :
    (∀ x ∈ m, x.role = Role.system → x ∈ trimMessagesToTokenLimit m k) ∧
      (trimMessagesToTokenLimit m k).length ≤ m.length := by
  by_cases h : estimateTokensFromMessages m ≤ k
  · rw [trimMessagesToTokenLimit_of_le m k h]
    exact ⟨fun x hx _ => hx, Nat.le_refl _⟩
  · rw [trimMessagesToTokenLimit_of_gt m k h]
    constructor
    · intro x hx hsys
      exact List.mem_append_left _ (List.mem_filter.mpr ⟨hx, by simp [hsys]⟩)
    · rw [List.length_append]
      have hsuf := (dropOldestWhileOverLimit_suffix
        (m.filter (fun x => x.role = Role.system))
        (m.filter (fun x => ¬ (x.role = Role.system))) k).sublist.length_le
      have hsplit := List.length_eq_length_filter_add
        (l := m) (fun x => decide (x.role = Role.system))
      have hcongr : m.filter (fun x => !decide (x.role = Role.system))
          = m.filter (fun x => ¬ (x.role = Role.system)) := by
        apply List.filter_congr
        intro a _
        simp [decide_not]
      rw [hcongr] at hsplit
      omega

/-- C4 witness: concrete instance of system retention and length bound. -/
theorem trim_keeps_system_messages_witness :
    (⟨Role.system, "s"⟩ : ChatMessage) ∈ trimMessagesToTokenLimit mixedMessages 1 ∧
      (trimMessagesToTokenLimit mixedMessages 1).length ≤ mixedMessages.length :=
  ⟨(trim_keeps_system_messages_and_never_grows mixedMessages 1).1
      ⟨Role.system, "s"⟩ (by decide) rfl,
   (trim_keeps_system_messages_and_never_grows mixedMessages 1).2⟩

/-- C5 counterexample: on a list whose system messages are interleaved with
non-system messages, trimming moves the system messages in front, so the
output is not a subsequence of the input — the relative order of retained
messages is not preserved. -/
theorem trim_reorders_counterexample :
    ¬ List.Sublist (trimMessagesToTokenLimit mixedMessages 1) mixedMessages := by
  decide

/-- C5 amended: if the estimate of `m` is at or under `k`, the output equals
`m` unchanged; otherwise the output is the system messages of `m` in their
original relative order followed by a suffix of the non-system messages of
`m` in their original relative order (so order is preserved within each
class, but system messages are hoisted in front of the retained non-system
messages). -/
theorem trim_unchanged_under_budget_and_classwise_order (m : List ChatMessage) (k : Nat) :
    (estimateTokensFromMessages m ≤ k → trimMessagesToTokenLimit m k = m) ∧
      (¬ estimateTokensFromMessages m ≤ k →
        ∃ ns, ns <:+ m.filter (fun x => ¬ (x.role = Role.system)) ∧
          trimMessagesToTokenLimit m k
            = m.filter (fun x => x.role = Role.system) ++ ns) := by
  refine ⟨trimMessagesToTokenLimit_of_le m k, fun h => ?_⟩
  exact ⟨_, dropOldestWhileOverLimit_suffix _ _ k,
    trimMessagesToTokenLimit_of_gt m k h⟩

/-- C5 witness: the amended statement discharged at a concrete over-budget
input. -/
theorem trim_classwise_order_witness :
    ∃ ns, ns <:+ mixedMessages.filter (fun x => ¬ (x.role = Role.system)) ∧
      trimMessagesToTokenLimit mixedMessages 1
        = mixedMessages.filter (fun x => x.role = Role.system) ++ ns :=
  (trim_unchanged_under_budget_and_classwise_order mixedMessages 1).2 (by decide)

/-- C6: trimming is idempotent: `trim(trim(m, k), k) = trim(m, k)`. -/
theorem trimMessagesToTokenLimit_idempotent (m : List ChatMessage) (k : Nat) :
    trimMessagesToTokenLimit (trimMessagesToTokenLimit m k) k
      = trimMessagesToTokenLimit m k := by
  by_cases h : estimateTokensFromMessages m ≤ k
  · rw [trimMessagesToTokenLimit_of_le m k h, trimMessagesToTokenLimit_of_le m k h]
  · rw [trimMessagesToTokenLimit_of_gt m k h]
    rcases dropOldestWhileOverLimit_spec (m.filter (fun x => x.role = Role.system))
        (m.filter (fun x => ¬ (x.role = Role.system))) k with hnil | hle
    · rw [hnil, List.append_nil]
      by_cases h2 : estimateTokensFromMessages (m.filter (fun x => x.role = Role.system)) ≤ k
      · exact trimMessagesToTokenLimit_of_le _ k h2
      · rw [trimMessagesToTokenLimit_of_gt _ k h2, filter_system_self,
          filter_system_nonSystem_nil, dropOldestWhileOverLimit, List.append_nil]
    · exact trimMessagesToTokenLimit_of_le _ k hle

/-! ### The streaming chat turn -/

theorem drainAccumulate_eq_join (chunks : List String) :
    drainAccumulate chunks = String.join chunks := rfl

theorem getLast?_append_pair {α : Type} (l : List α) (a b : α) :
    List.getLast? (l ++ [a, b]) = some b := by
  rw [show l ++ [a, b] = (l ++ [a]) ++ [b] by simp]
  exact List.getLast?_concat _

/-- C1: on every chat turn that obtained a stream — completed (`done`),
interrupted (`abortError`) or ended by a drain error — the assistant
message persisted by the continuation has `content` equal to the
concatenation `c1 ++ c2 ++ ... ++ cn` of the content chunks forwarded to
the client up to the terminal event (both `tee()` views deliver the same
chunks), and its `interrupted` flag is set exactly on abort. -/
theorem persisted_assistant_content_eq_forwarded_chunks
    (msgs : List RawMessage) (oldCid : Option String) (freshId : String)
    (reg : Registry) (storedHistory : List Message) (chunks : List String)
    (e : StreamEnd) (tsUser tsAssistant : Nat) (userContent : String)
    (hvalid : lastMessageValid msgs = some userContent) :
    ∃ h,
      (handlePostChat msgs oldCid freshId reg storedHistory
          (ProviderOutcome.stream chunks e) tsUser tsAssistant).savedHistory = some h ∧
        List.getLast? h = some
          { role := Role.assistant, content := String.join chunks,
            timestamp := tsAssistant,
            interrupted := some (match e with
              | StreamEnd.abortError => true
              | _ => false) } := by
  have hne : ¬ List.length msgs = 0 := by
    intro h0
    rw [List.length_eq_zero] at h0
    subst h0
    simp [lastMessageValid] at hvalid
  simp only [handlePostChat, hvalid]
  rw [if_neg hne]
  refine ⟨_, rfl, ?_⟩
  rw [getLast?_append_pair]
  rfl

/-- C1 witness: a concrete interrupted turn persists the concatenation of
the two forwarded chunks with `interrupted = true`. -/
theorem persisted_assistant_content_witness :
    ∃ h,
      (handlePostChat [⟨"user", some "hi"⟩] none "fresh-id" [] []
          (ProviderOutcome.stream ["Hel", "lo"] StreamEnd.abortError) 5 9).savedHistory
        = some h ∧
        List.getLast? h = some
          { role := Role.assistant, content := String.join ["Hel", "lo"],
            timestamp := 9, interrupted := some true } :=
  persisted_assistant_content_eq_forwarded_chunks
    [⟨"user", some "hi"⟩] none "fresh-id" [] [] ["Hel", "lo"]
    StreamEnd.abortError 5 9 "hi" (by decide)

/-- C2 (violated by the code): a turn for conversation id `"c1"` whose
provider call answers with a non-ok status ends with HTTP 502, yet the
cancellation registry still contains `"c1"` — the entry is left dangling
after the turn ends, because neither the 502 path nor the outer catch
deletes it (only the drain's `finally` does, and no stream was obtained).
-/
theorem registry_entry_dangles_after_provider_error :
    (handlePostChat [⟨"user", some "hi"⟩] (some "c1") "fresh-id" [] []
        ProviderOutcome.httpError 0 0).status = 502 ∧
      (handlePostChat [⟨"user", some "hi"⟩] (some "c1") "fresh-id" [] []
          ProviderOutcome.httpError 0 0).registry = ["c1"] := by
  constructor <;> decide

/-- C3: a chat request whose messages array is empty or whose last element
is not a well-formed non-empty user message fails with HTTP 400 before any
model call, leaving the cancellation registry and the store untouched. -/
theorem invalid_chat_request_fails_fast
    (msgs : List RawMessage) (oldCid : Option String) (freshId : String)
    (reg : Registry) (storedHistory : List Message) (outcome : ProviderOutcome)
    (tsUser tsAssistant : Nat)
    (hinvalid : List.length msgs = 0 ∨ lastMessageValid msgs = none) :
    handlePostChat msgs oldCid freshId reg storedHistory outcome tsUser tsAssistant
      = { status := 400, registry := reg, modelCalled := false,
          savedHistory := none } := by
  rcases hinvalid with h | h
  · simp only [handlePostChat]
    rw [if_pos h]
  · by_cases h0 : List.length msgs = 0
    · simp only [handlePostChat]
      rw [if_pos h0]
    · simp only [handlePostChat]
      rw [if_neg h0, h]

/-- C3 witness: the empty messages array is rejected with 400 and no side
effect. -/
theorem invalid_chat_request_witness :
    handlePostChat [] none "fresh-id" ["other"] [] ProviderOutcome.httpError 0 0
      = { status := 400, registry := ["other"], modelCalled := false,
          savedHistory := none } :=
  invalid_chat_request_fails_fast [] none "fresh-id" ["other"] []
    ProviderOutcome.httpError 0 0 (Or.inl rfl)

/-! ### History lookup -/

/-- C8 counterexample: with an empty store, `GET /history?id=doesnotexist`
answers 200 with an empty history — not 404 as the claim states. -/
theorem history_missing_record_answers_200_not_404 :
    (handleGetHistory (fun _ => none) (some "doesnotexist")).1 = 200 ∧
      ¬ (handleGetHistory (fun _ => none) (some "doesnotexist")).1 = 404 :=
  ⟨rfl, by decide⟩

/-- C8 amended: a missing id parameter answers 400; a non-empty id whose
record is missing answers 200 with an empty history (the handler never
returns 404); a non-empty id whose record parses to `h` answers 200 with
`(conversationId, h)`. -/
theorem handleGetHistory_spec (kv : KVStore) (cid : String) (h : List Message) :
    handleGetHistory kv none = (400, none) ∧
      (¬ (cid = "") → kv cid = none →
        handleGetHistory kv (some cid) = (200, some (cid, []))) ∧
      (¬ (cid = "") → kv cid = some (some h) →
        handleGetHistory kv (some cid) = (200, some (cid, h))) := by
  refine ⟨rfl, fun hc hkv => ?_, fun hc hkv => ?_⟩
  · simp [handleGetHistory, readHistory, hc, hkv]
  · simp [handleGetHistory, readHistory, hc, hkv]

/-- A sample store holding a single conversation `"abc"`. -/
def sampleStore : KVStore :=
  fun s => if s = "abc" then some (some [⟨Role.user, "hi", 1, none⟩]) else none

/-- C8 witness: the amended statement discharged on `sampleStore`. -/
theorem handleGetHistory_spec_witness :
    handleGetHistory sampleStore none = (400, none) ∧
      handleGetHistory sampleStore (some "missing-id") = (200, some ("missing-id", [])) ∧
      handleGetHistory sampleStore (some "abc")
        = (200, some ("abc", [⟨Role.user, "hi", 1, none⟩])) :=
  ⟨(handleGetHistory_spec sampleStore "x" []).1,
   (handleGetHistory_spec sampleStore "missing-id" []).2.1 (by decide) rfl,
   (handleGetHistory_spec sampleStore "abc" [⟨Role.user, "hi", 1, none⟩]).2.2
     (by decide) rfl⟩

/-! ### Cancellation -/

/-- C9: cancelling a conversation id with no registered abort handle answers
404 and has no side effect — the registry is unchanged and no abort is
signalled (the handler never touches the stored transcript: it takes no
store reference at all). -/
theorem cancel_without_handle_is_404_without_side_effect
    (reg : Registry) (conversationId : String)
    (h : ¬ (conversationId ∈ reg)) :
    handlePostCancel reg conversationId
      = { status := 404, registry := reg, abortSignalled := false } := by
  simp [handlePostCancel, h]

/-- C9 witness: cancelling an id absent from a non-empty registry. -/
theorem cancel_without_handle_witness :
    handlePostCancel ["other"] "c9"
      = { status := 404, registry := ["other"], abortSignalled := false } :=
  cancel_without_handle_is_404_without_side_effect ["other"] "c9" (by decide)

/-! ### Rate limiter -/

theorem processRequests_nil (record : Option RateRecord) (w m : Nat) :
    processRequests record [] w m = ([], record) := rfl

theorem processRequests_cons (record : Option RateRecord) (t : Nat)
    (ts : List Nat) (w m : Nat) :
    processRequests record (t :: ts) w m
      = ((checkRateLimit record t w m).1
            :: (processRequests (checkRateLimit record t w m).2 ts w m).1,
         (processRequests (checkRateLimit record t w m).2 ts w m).2) := rfl

theorem processRequests_append (l1 l2 : List Nat) (record : Option RateRecord)
    (w m : Nat) :
    processRequests record (l1 ++ l2) w m
      = ((processRequests record l1 w m).1
            ++ (processRequests (processRequests record l1 w m).2 l2 w m).1,
         (processRequests (processRequests record l1 w m).2 l2 w m).2) := by
  induction l1 generalizing record with
  | nil => simp [processRequests]
  | cons t ts ih => simp [processRequests_cons, ih]

/-- Within an active window, a run of requests that keeps the count at or
under the maximum is entirely allowed and only increments the count. -/
theorem processRequests_in_window (t1 windowSec maxRequests : Nat)
    (ts : List Nat) :
    ∀ c, 1 ≤ c → c + ts.length ≤ maxRequests →
      (∀ t ∈ ts, t1 ≤ t ∧ t - t1 < windowSec * 1000) →
      processRequests (some ⟨t1, c⟩) ts windowSec maxRequests
        = (List.replicate ts.length { allowed := true, retryAfterSec := none },
           some ⟨t1, c + ts.length⟩) := by
  induction ts with
  | nil => intro c _ _ _; simp [processRequests_nil]
  | cons t ts ih =>
    intro c hc hlen hbound
    have hb := hbound t (List.mem_cons_self t ts)
    have hwin : ¬ (t - t1 ≥ windowSec * 1000) := by omega
    have hcount : c < maxRequests := by
      simp only [List.length_cons] at hlen
      omega
    rw [processRequests_cons]
    simp only [checkRateLimit]
    rw [if_neg hwin, if_pos hcount]
    rw [ih (c + 1) (by omega)
        (by simp only [List.length_cons] at hlen; omega)
        (fun x hx => hbound x (List.mem_cons_of_mem _ hx))]
    have harith : c + 1 + ts.length = c + (ts.length + 1) := by omega
    simp [List.replicate_succ, harith]

/-- C7: for a fixed client key with no prior entry, the first request and
the following `maxRequests - 1` requests arriving within `windowSec` of the
first are all allowed, and the `(maxRequests + 1)`-th request, still within
`windowSec` of the first, is rejected with a computed `Retry-After` of at
most `windowSec` seconds. -/
theorem rate_limit_rejects_request_over_max
    (t1 tlast windowSec maxRequests : Nat) (mid : List Nat)
    (hmax : 1 ≤ maxRequests)
    (hmid : mid.length = maxRequests - 1)
    (hmidBound : ∀ t ∈ mid, t1 ≤ t ∧ t - t1 < windowSec * 1000)
    (hlastLo : t1 ≤ tlast) (hlastHi : tlast - t1 < windowSec * 1000) :
    processRequests none (t1 :: (mid ++ [tlast])) windowSec maxRequests
      = (List.replicate maxRequests { allowed := true, retryAfterSec := none }
          ++ [{ allowed := false,
                retryAfterSec :=
                  some ((t1 + windowSec * 1000 - tlast + 999) / 1000) }],
         some ⟨t1, maxRequests⟩) ∧
      (t1 + windowSec * 1000 - tlast + 999) / 1000 ≤ windowSec := by
  have hfirst : checkRateLimit none t1 windowSec maxRequests
      = ({ allowed := true, retryAfterSec := none }, some ⟨t1, 1⟩) := rfl
  have hlastWin : ¬ (tlast - t1 ≥ windowSec * 1000) := by omega
  have hlastCount : ¬ (maxRequests < maxRequests) := by omega
  constructor
  · rw [processRequests_cons, hfirst]
    rw [processRequests_append]
    rw [processRequests_in_window t1 windowSec maxRequests mid 1 (Nat.le_refl 1)
        (by omega) hmidBound]
    rw [hmid, show 1 + (maxRequests - 1) = maxRequests by omega]
    rw [processRequests_cons]
    simp only [checkRateLimit]
    rw [if_neg hlastWin, if_neg hlastCount]
    rw [processRequests_nil]
    have hm : maxRequests = (maxRequests - 1) + 1 := by omega
    simp only [Prod.mk.injEq]
    refine ⟨?_, trivial⟩
    conv_rhs => rw [hm, List.replicate_succ]
    rw [List.cons_append]
  · omega

/-- C7 witness: with maximum 2 and a 60-second window, requests at 0, 10 are
allowed and the third request at 20 is rejected with `Retry-After` 60. -/
theorem rate_limit_rejects_request_over_max_witness :
    processRequests none (0 :: ([10] ++ [20])) 60 2
      = (List.replicate 2 { allowed := true, retryAfterSec := none }
          ++ [{ allowed := false,
                retryAfterSec := some ((0 + 60 * 1000 - 20 + 999) / 1000) }],
         some ⟨0, 2⟩) ∧
      (0 + 60 * 1000 - 20 + 999) / 1000 ≤ 60 :=
  rate_limit_rejects_request_over_max 0 20 60 2 [10] (by decide) (by decide)
    (by decide) (by decide) (by decide)

/-- The implicit invariant on one client key's stored rate-limit entry: an
existing entry's count lies between 1 and the configured maximum. -/
def rateRecordCountInv (maxRequests : Nat) : Option RateRecord → Prop
  | none => True
  | some r => 1 ≤ r.count ∧ r.count ≤ maxRequests

/-- C10: with a positive configured maximum, `checkRateLimit` preserves the
bound `1 ≤ count ≤ maxRequests` on the stored entry: it resets the count to
1 when starting a new window and only increments a count that is strictly
below the maximum. -/
theorem checkRateLimit_preserves_count_invariant
    (record : Option RateRecord) (now windowSec maxRequests : Nat)
    (hmax : 1 ≤ maxRequests)
    (hinv : rateRecordCountInv maxRequests record) :
    rateRecordCountInv maxRequests
      (checkRateLimit record now windowSec maxRequests).2 := by
  cases record with
  | none =>
    simp only [checkRateLimit, rateRecordCountInv]
    omega
  | some r =>
    simp only [rateRecordCountInv] at hinv
    simp only [checkRateLimit]
    split
    · simp only [rateRecordCountInv]
      omega
    · split
      · simp only [rateRecordCountInv]
        next h => omega
      · simpa [rateRecordCountInv] using hinv

/-- C10 witness: the invariant is preserved on a concrete in-window
increment. -/
theorem checkRateLimit_preserves_count_invariant_witness :
    rateRecordCountInv 30 (checkRateLimit (some ⟨0, 3⟩) 5 60 30).2 :=
  checkRateLimit_preserves_count_invariant (some ⟨0, 3⟩) 5 60 30 (by decide)
    (by simp [rateRecordCountInv])
